import Mathlib

/-
Shallow embedding of `src/My Compiler/error.c` (diagnostic reporting,
checked allocation wrappers, and program/source-name bookkeeping).

Modelling conventions:
* `isatty(2)` is the boolean parameter `istty`.
* `strerror(errno)` at call time is the string parameter `en`.
* `vfprintf(stderr, fmt, args)` writes `body`, the text obtained by
  formatting `fmt` with the (unmodelled) varargs; the trailing-colon test
  in the source inspects `fmt` itself, so both are carried.
* Each `fflush`/`fprintf` call of the source produces one `OutEvt`.
* `exit(n)` and C undefined behaviour (a null-pointer dereference) are the
  `Outcome.exit n` and `Outcome.crash` outcomes; a normal return to the
  caller is `Outcome.ret`.
* `malloc`/`realloc` success is decided by a boolean oracle `ok`; the heap
  is an association list from nonzero addresses to block contents, with
  address 0 playing NULL.
-/

namespace ErrorC

/-- The ANSI escape introducer, `ESC = "\033["` in the source. -/
def ESC : String := "\x1b["

/-- Reset sequence, `ASCII_RESET = ESC "m"`. -/
def ASCII_RESET : String := ESC ++ "m"

/-- Bold red, `ASCII_BOLD_RED = ESC BOLD RED = ESC "1;" "31m"`. -/
def ASCII_BOLD_RED : String := ESC ++ "1;" ++ "31m"

/-- Bold yellow, `ASCII_BOLD_YELLOW = ESC BOLD YELLOW = ESC "1;" "33m"`. -/
def ASCII_BOLD_YELLOW : String := ESC ++ "1;" ++ "33m"

/-- Bold white, `ASCII_BOLD_WHITE = ESC BOLD WHITE = ESC "1;" "37m"`. -/
def ASCII_BOLD_WHITE : String := ESC ++ "1;" ++ "37m"

/-- Source position, the line/column pair of `error.h`; both are C `int`s,
printed with `%d`. -/
structure SourcePos where
  line : Int
  col : Int
deriving DecidableEq

/-- The process-wide mutable state of the module: the owned name strings
`pname` and `sname` (`none` models a NULL pointer) and the global
`position` written by the scanner. -/
structure ErrState where
  pname : Option String
  sname : Option String
  position : SourcePos
deriving DecidableEq

/-- Model of `getprogname()` (non-Apple branch): returns the stored `pname`. -/
def getprogname (st : ErrState) : Option String := st.pname

/-- Model of `getsrcname()`: returns the stored `sname`. -/
def getsrcname (st : ErrState) : Option String := st.sname

/-- One observable libc output call: `fflush(stdout)` or a write to
`stderr` of a finished piece of text. -/
inductive OutEvt where
  | flushStdout : OutEvt
  | writeStderr : String → OutEvt
deriving DecidableEq

/-- Everything a list of events writes to stderr, in order. -/
def stderrStr : List OutEvt → String
  | [] => ""
  | OutEvt.flushStdout :: rest => stderrStr rest
  | OutEvt.writeStderr s :: rest => s ++ stderrStr rest

/-- Model of `_weprintf(pre, pos, fmt, args)`: the shared internal formatting
routine, one event per `fflush`/`fprintf` call of the source, in source
order.  `pre = none` and `pos = none` model NULL arguments. -/
def _weprintf (istty : Bool) (st : ErrState) (pre : Option String)
    (pos : Option SourcePos) (fmt body en : String) : List OutEvt :=
  let ac_end := if istty then ASCII_RESET else ""
  let ac_src := if istty then ASCII_BOLD_WHITE else ""
  let ac_pos := if istty then ASCII_BOLD_WHITE else ""
  [OutEvt.flushStdout]
    ++ (match getprogname st with
        | some pn => [OutEvt.writeStderr (pn ++ ":")]
        | none => [])
    ++ (match getsrcname st with
        | some sn => [OutEvt.writeStderr (" " ++ ac_src ++ sn ++ ":" ++ ac_end)]
        | none => [])
    ++ (match pos with
        | some p => [OutEvt.writeStderr
            (ac_pos ++ toString p.line ++ ":" ++ toString p.col ++ ac_end ++ ":")]
        | none => [])
    ++ (match pre with
        | some t => [OutEvt.writeStderr (" " ++ t ++ " ")]
        | none => [OutEvt.writeStderr " "])
    ++ [OutEvt.writeStderr body]
    ++ (if fmt ≠ "" ∧ fmt.back = ':' then [OutEvt.writeStderr (" " ++ en)] else [])
    ++ [OutEvt.writeStderr "\n"]

/-- Result of one public reporting call: the events performed, and
`some status` when the call ends in `exit(status)`, `none` when it
returns to the caller. -/
structure ProcResult where
  events : List OutEvt
  exitCode : Option Nat
deriving DecidableEq

/-- Model of `eprintf(fmt, ...)`: Error-tagged message, no position, `exit(2)`. -/
def eprintf (istty : Bool) (st : ErrState) (fmt body en : String) : ProcResult :=
  let pre := if istty then ASCII_BOLD_RED ++ "Error:" ++ ASCII_RESET else "Error:"
  ⟨_weprintf istty st (some pre) none fmt body en, some 2⟩

/-- Model of `leprintf(fmt, ...)`: Error-tagged message at the current `position`,
`exit(2)`. -/
def leprintf (istty : Bool) (st : ErrState) (fmt body en : String) : ProcResult :=
  let pre := if istty then ASCII_BOLD_RED ++ "Error:" ++ ASCII_RESET else "Error:"
  ⟨_weprintf istty st (some pre) (some st.position) fmt body en, some 2⟩

/-- Model of `weprintf(fmt, ...)`: Warning-tagged message, no position; returns. -/
def weprintf (istty : Bool) (st : ErrState) (fmt body en : String) : ProcResult :=
  let pre := if istty then ASCII_BOLD_YELLOW ++ "Warning:" ++ ASCII_RESET else "Warning:"
  ⟨_weprintf istty st (some pre) none fmt body en, none⟩

/-- Model of `teprintf(tag, fmt, ...)`: caller-supplied tag, passed to `_weprintf`
verbatim, at the current `position`; `exit(3)`. -/
def teprintf (istty : Bool) (st : ErrState) (tag : String) (fmt body en : String) :
    ProcResult :=
  ⟨_weprintf istty st (some tag) (some st.position) fmt body en, some 3⟩

/-- The heap: `next` is the next fresh address (0 plays NULL), `blocks`
associates allocated addresses to their contents. -/
structure Heap where
  next : Nat
  blocks : List (Nat × List Char)
deriving DecidableEq

/-- Contents stored at address `a`, if any. -/
def Heap.read (h : Heap) (a : Nat) : Option (List Char) :=
  (h.blocks.find? (fun p => p.fst == a)).map Prod.snd

/-- Overwrite the block at address `a` with `v`. -/
def Heap.write (h : Heap) (a : Nat) (v : List Char) : Heap :=
  ⟨h.next, h.blocks.map (fun p => if p.fst = a then (a, v) else p)⟩

/-- Model of `malloc(n)`: the oracle `ok` decides success.  On success a fresh
nonzero address with `n` uninitialised cells; on failure NULL (0) and an
unchanged heap. -/
def Heap.mallocH (h : Heap) (ok : Bool) (n : Nat) : Nat × Heap :=
  if ok then (h.next, ⟨h.next + 1, (h.next, List.replicate n ' ') :: h.blocks⟩)
  else (0, h)

/-- Model of `realloc(vp, n)`: on success the block moves to a fresh address holding
the old contents resized to `n`; on failure NULL is returned and the
original block is untouched. -/
def Heap.reallocH (h : Heap) (ok : Bool) (vp n : Nat) : Nat × Heap :=
  if ok then
    let old := ((h.read vp).getD []).take n
    (h.next, ⟨h.next + 1, (h.next, old ++ List.replicate (n - old.length) ' ') :: h.blocks⟩)
  else (0, h)

/-- Model of `strcpy(dst, src)`: `none` models the null-pointer dereference (crash)
that C performs when `dst` is NULL. -/
def Heap.strcpy (h : Heap) (dst : Nat) (src : List Char) : Option Heap :=
  if dst = 0 then none else some (h.write dst src)

/-- How a call to one of the allocation helpers ends. -/
inductive Outcome (α : Type) where
  | ret : α → Outcome α
  | exit : Nat → Outcome α
  | crash : Outcome α
deriving DecidableEq

/-- Events performed plus the outcome. -/
structure RunResult (α : Type) where
  events : List OutEvt
  outcome : Outcome α
deriving DecidableEq

/-- The format string of `estrdup`/`westrdup`'s failure message (the source
says `estrdup` in both). -/
def fmt_estrdup : String := "estrdup(\x22%.20s\x22) failed:"

/-- The text `vfprintf` produces for `fmt_estrdup` applied to `s`
(`%.20s` prints at most 20 characters). -/
def body_estrdup (s : List Char) : String :=
  "estrdup(\x22" ++ String.mk (s.take 20) ++ "\x22) failed:"

/-- The format string of `emalloc`/`wemalloc`'s failure message. -/
def fmt_malloc : String := "malloc of %u bytes failed:"

/-- The text `vfprintf` produces for `fmt_malloc` applied to `n`. -/
def body_malloc (n : Nat) : String := "malloc of " ++ toString n ++ " bytes failed:"

/-- The format string of `erealloc`/`werealloc`'s failure message. -/
def fmt_realloc : String := "realloc of %u bytes failed:"

/-- The text `vfprintf` produces for `fmt_realloc` applied to `n`. -/
def body_realloc (n : Nat) : String := "realloc of " ++ toString n ++ " bytes failed:"

/-- Model of `estrdup(s)`: `sa` is the address of the argument string, whose
contents the heap holds.  `malloc`, then `eprintf` (which exits with the
status 2 its model carries) when the result is NULL, else `strcpy` into
the new block and return its address. -/
def estrdup (istty : Bool) (st : ErrState) (en : String) (h : Heap) (ok : Bool)
    (sa : Nat) : RunResult (Nat × Heap) :=
  let s := (h.read sa).getD []
  let th1 := h.mallocH ok (s.length + 1)
  if th1.fst = 0 then
    let r := eprintf istty st fmt_estrdup (body_estrdup s) en
    ⟨r.events, Outcome.exit (r.exitCode.getD 0)⟩
  else
    match th1.snd.strcpy th1.fst s with
    | none => ⟨[], Outcome.crash⟩
    | some h2 => ⟨[], Outcome.ret (th1.fst, h2)⟩

/-- Model of `westrdup(s)`: `malloc`, then `weprintf` (which returns) when the
result is NULL, and then — unconditionally, as in the source —
`strcpy(t, s)` and `return t`. -/
def westrdup (istty : Bool) (st : ErrState) (en : String) (h : Heap) (ok : Bool)
    (sa : Nat) : RunResult (Nat × Heap) :=
  let s := (h.read sa).getD []
  let th1 := h.mallocH ok (s.length + 1)
  let evts := if th1.fst = 0 then (weprintf istty st fmt_estrdup (body_estrdup s) en).events
              else []
  match th1.snd.strcpy th1.fst s with
  | none => ⟨evts, Outcome.crash⟩
  | some h2 => ⟨evts, Outcome.ret (th1.fst, h2)⟩

/-- Model of `emalloc(n)`: `malloc`; `eprintf` (exit 2) on NULL, else return. -/
def emalloc (istty : Bool) (st : ErrState) (en : String) (h : Heap) (ok : Bool)
    (n : Nat) : RunResult (Nat × Heap) :=
  let ph1 := h.mallocH ok n
  if ph1.fst = 0 then
    let r := eprintf istty st fmt_malloc (body_malloc n) en
    ⟨r.events, Outcome.exit (r.exitCode.getD 0)⟩
  else ⟨[], Outcome.ret ph1⟩

/-- Model of `wemalloc(n)`: `malloc`; `weprintf` on NULL; returns the pointer
(possibly NULL) in every case. -/
def wemalloc (istty : Bool) (st : ErrState) (en : String) (h : Heap) (ok : Bool)
    (n : Nat) : RunResult (Nat × Heap) :=
  let ph1 := h.mallocH ok n
  let evts := if ph1.fst = 0 then (weprintf istty st fmt_malloc (body_malloc n) en).events
              else []
  ⟨evts, Outcome.ret ph1⟩

/-- Model of `erealloc(vp, n)`: `realloc`; `eprintf` (exit 2) on NULL, else return. -/
def erealloc (istty : Bool) (st : ErrState) (en : String) (h : Heap) (ok : Bool)
    (vp n : Nat) : RunResult (Nat × Heap) :=
  let ph1 := h.reallocH ok vp n
  if ph1.fst = 0 then
    let r := eprintf istty st fmt_realloc (body_realloc n) en
    ⟨r.events, Outcome.exit (r.exitCode.getD 0)⟩
  else ⟨[], Outcome.ret ph1⟩

/-- Model of `werealloc(vp, n)`: `realloc`; `weprintf` on NULL; returns the pointer
(possibly NULL) in every case. -/
def werealloc (istty : Bool) (st : ErrState) (en : String) (h : Heap) (ok : Bool)
    (vp n : Nat) : RunResult (Nat × Heap) :=
  let ph1 := h.reallocH ok vp n
  let evts := if ph1.fst = 0 then (weprintf istty st fmt_realloc (body_realloc n) en).events
              else []
  ⟨evts, Outcome.ret ph1⟩

/-- Contents-level view of `estrdup`, used by the name setters: identical
control flow (on `malloc` failure `eprintf` prints and exits with its
status 2), but it tracks the copied contents rather than heap addresses. -/
def estrdupStr (istty : Bool) (st : ErrState) (en : String) (ok : Bool)
    (s : String) : RunResult String :=
  if ok then ⟨[], Outcome.ret s⟩
  else
    let r := eprintf istty st fmt_estrdup (body_estrdup s.data) en
    ⟨r.events, Outcome.exit (r.exitCode.getD 0)⟩

/-- Model of `strrchr(s, c)`: the suffix of `s` that starts at the last occurrence
of `c`, or `none` (NULL) when `c` does not occur. -/
def strrchrSuffix (c : Char) : List Char → Option (List Char)
  | [] => none
  | a :: rest =>
    match strrchrSuffix c rest with
    | some t => some t
    | none => if a = c then some (a :: rest) else none

/-- Model of `setsrcname(s)`: `c = strrchr(s, '/')` is either NULL (keep `s`) or
advanced one past the slash (`c++`); `sname = estrdup(c)`. -/
def setsrcname (istty : Bool) (en : String) (ok : Bool) (st : ErrState)
    (s : String) : RunResult ErrState :=
  let c : List Char :=
    match strrchrSuffix '/' s.data with
    | none => s.data
    | some t => t.tail
  let r := estrdupStr istty st en ok (String.mk c)
  match r.outcome with
  | Outcome.ret t => ⟨r.events, Outcome.ret { st with sname := some t }⟩
  | Outcome.exit n => ⟨r.events, Outcome.exit n⟩
  | Outcome.crash => ⟨r.events, Outcome.crash⟩

/-- Model of `setprogname(s)` (non-Apple branch): same as `setsrcname` but
installing `pname`. -/
def setprogname (istty : Bool) (en : String) (ok : Bool) (st : ErrState)
    (s : String) : RunResult ErrState :=
  let c : List Char :=
    match strrchrSuffix '/' s.data with
    | none => s.data
    | some t => t.tail
  let r := estrdupStr istty st en ok (String.mk c)
  match r.outcome with
  | Outcome.ret t => ⟨r.events, Outcome.ret { st with pname := some t }⟩
  | Outcome.exit n => ⟨r.events, Outcome.exit n⟩
  | Outcome.crash => ⟨r.events, Outcome.crash⟩

/-- The `"<programName>:"` piece of a diagnostic, when the name is set. -/
def pnameSeg (st : ErrState) : String :=
  match st.pname with
  | some pn => pn ++ ":"
  | none => ""

/-- The `" <sourceName>:"` piece, colourised when `istty`. -/
def snameSeg (istty : Bool) (st : ErrState) : String :=
  match st.sname with
  | some sn =>
      " " ++ ((if istty then ASCII_BOLD_WHITE else "") ++
        (sn ++ (":" ++ (if istty then ASCII_RESET else ""))))
  | none => ""

/-- The `"<line>:<col>:"` piece, colourised when `istty`. -/
def posSeg (istty : Bool) (pos : Option SourcePos) : String :=
  match pos with
  | some p =>
      (if istty then ASCII_BOLD_WHITE else "") ++
        (toString p.line ++ (":" ++ (toString p.col ++
          ((if istty then ASCII_RESET else "") ++ ":"))))
  | none => ""

/-- The `" <severityTag> "` piece, or a single space when there is no tag. -/
def tagSeg (pre : Option String) : String :=
  match pre with
  | some t => " " ++ (t ++ " ")
  | none => " "

/-- The errno-text suffix: appended exactly when the format string is
nonempty and ends in a colon. -/
def errnoSeg (fmt en : String) : String :=
  if fmt ≠ "" ∧ fmt.back = ':' then " " ++ en else ""

/-- The prefix-plus-body part of one diagnostic line: everything before
the errno suffix and the newline. -/
def diagCore (istty : Bool) (st : ErrState) (pre : Option String)
    (pos : Option SourcePos) (body : String) : String :=
  pnameSeg st ++ (snameSeg istty st ++ (posSeg istty pos ++ (tagSeg pre ++ body)))

/-- Does `s` contain the ANSI escape character? -/
def hasEsc (s : String) : Bool := s.data.any (fun ch => ch == '\x1b')

/-- Test whether `pat` starts `s` (character lists). -/
def startsWithChars : List Char → List Char → Bool
  | [], _ => true
  | _ :: _, [] => false
  | a :: pat, b :: s => a == b && startsWithChars pat s

/-- Test whether `pat` occurs as a contiguous run somewhere inside `s`. -/
def hasSeq (pat : List Char) : List Char → Bool
  | [] => startsWithChars pat []
  | b :: s => startsWithChars pat (b :: s) || hasSeq pat s

/-- Optional-string variant of `hasEsc` (`none` plays a NULL pointer). -/
def hasEscOpt : Option String → Bool
  | some s => hasEsc s
  | none => false

/-- Concrete state used by the closed statements below: no names set,
position 1:1. -/
def st0 : ErrState := ⟨none, none, ⟨1, 1⟩⟩

/-- Concrete heap used by the closed statements below: address 1 holds
the string "hi"; the next fresh address is 2. -/
def h0c : Heap := ⟨2, [(1, ['h', 'i'])]⟩

theorem mk_data (s : String) : String.mk s.data = s := by
  cases s
  rfl

theorem stderrStr_append (l1 l2 : List OutEvt) :
    stderrStr (l1 ++ l2) = stderrStr l1 ++ stderrStr l2 := by
  induction l1 with
  | nil => simp [stderrStr, String.empty_append]
  | cons e rest ih => cases e <;> simp [stderrStr, ih, String.append_assoc]

theorem weprintf_core_str (istty : Bool) (st : ErrState) (pre : Option String)
    (pos : Option SourcePos) (fmt body en : String) :
    stderrStr (_weprintf istty st pre pos fmt body en) =
      pnameSeg st ++ (snameSeg istty st ++ (posSeg istty pos ++ (tagSeg pre ++
        (body ++ (errnoSeg fmt en ++ "\n"))))) := by
  unfold _weprintf pnameSeg snameSeg posSeg tagSeg errnoSeg getprogname getsrcname
  cases st.pname <;> cases st.sname <;> cases pos <;> cases pre <;>
    by_cases hc : fmt ≠ "" ∧ fmt.back = ':' <;>
      simp [stderrStr_append, stderrStr, hc, String.append_assoc,
        String.append_empty, String.empty_append]

/-- C2: for every format string reaching the shared reporting routine, if it
is nonempty and its last character is `':'` the emitted line ends with a
single space and the errno description active at call time (before the final
newline); otherwise no error-string suffix is appended. -/
theorem errno_suffix_iff_trailing_colon (istty : Bool) (st : ErrState)
    (pre : Option String) (pos : Option SourcePos) (fmt body en : String) :
    (fmt ≠ "" → fmt.back = ':' →
      stderrStr (_weprintf istty st pre pos fmt body en) =
        diagCore istty st pre pos body ++ (" " ++ (en ++ "\n"))) ∧
    (¬(fmt ≠ "" ∧ fmt.back = ':') →
      stderrStr (_weprintf istty st pre pos fmt body en) =
        diagCore istty st pre pos body ++ "\n") := by
  constructor
  · intro h1 h2
    rw [weprintf_core_str]
    unfold diagCore errnoSeg
    rw [if_pos ⟨h1, h2⟩]
    simp [String.append_assoc]
  · intro hc
    rw [weprintf_core_str]
    unfold diagCore errnoSeg
    rw [if_neg hc]
    simp [String.append_assoc, String.empty_append]

/-- Witness for C2 at concrete inputs, one for each branch. -/
theorem errno_suffix_iff_trailing_colon_witness :
    (("open failed:" ≠ "" ∧ String.back "open failed:" = ':') ∧
      stderrStr (_weprintf false st0 none none "open failed:" "open failed" "No such file") =
        diagCore false st0 none none "open failed" ++ (" " ++ ("No such file" ++ "\n"))) ∧
    (¬("hello %d" ≠ "" ∧ String.back "hello %d" = ':') ∧
      stderrStr (_weprintf false st0 none none "hello %d" "hello 7" "E") =
        diagCore false st0 none none "hello 7" ++ "\n") :=
  ⟨⟨by decide,
    (errno_suffix_iff_trailing_colon false st0 none none "open failed:" "open failed"
      "No such file").1 (by decide) (by decide)⟩,
   ⟨by decide,
    (errno_suffix_iff_trailing_colon false st0 none none "hello %d" "hello 7" "E").2
      (by decide)⟩⟩

/-- C3: `eprintf` and `leprintf` end in `exit(2)`, `teprintf` in `exit(3)`;
none of the three ever returns control to the caller (`exitCode` is never
`none`). -/
theorem fatal_paths_exit_codes (istty : Bool) (st : ErrState)
    (tag fmt body en : String) :
    (eprintf istty st fmt body en).exitCode = some 2 ∧
    (leprintf istty st fmt body en).exitCode = some 2 ∧
    (teprintf istty st tag fmt body en).exitCode = some 3 ∧
    (eprintf istty st fmt body en).exitCode ≠ none ∧
    (leprintf istty st fmt body en).exitCode ≠ none ∧
    (teprintf istty st tag fmt body en).exitCode ≠ none :=
  ⟨rfl, rfl, rfl, by simp [eprintf], by simp [leprintf], by simp [teprintf]⟩

/-- C4: the Warning path `weprintf` never terminates the process: its
`exitCode` is `none`, i.e. control returns to the caller. -/
theorem warning_path_returns (istty : Bool) (st : ErrState) (fmt body en : String) :
    (weprintf istty st fmt body en).exitCode = none := rfl

/-- C5: the shared internal routine flushes stdout first (and only there),
then writes to stderr, in order: program-name segment, source-name segment,
position segment, severity-tag segment (a single space when no tag), the
formatted body, the errno text exactly when the format ends in a colon, and
a final newline. -/
theorem shared_routine_output_order (istty : Bool) (st : ErrState)
    (pre : Option String) (pos : Option SourcePos) (fmt body en : String) :
    ∃ ws, _weprintf istty st pre pos fmt body en = OutEvt.flushStdout :: ws ∧
      OutEvt.flushStdout ∉ ws ∧
      stderrStr ws =
        pnameSeg st ++ (snameSeg istty st ++ (posSeg istty pos ++ (tagSeg pre ++
          (body ++ (errnoSeg fmt en ++ "\n"))))) := by
  refine ⟨_, rfl, ?_, ?_⟩
  · simp only [getprogname, getsrcname]
    cases st.pname <;> cases st.sname <;> cases pos <;> cases pre <;>
      by_cases hc : fmt ≠ "" ∧ fmt.back = ':' <;> simp [hc]
  · exact weprintf_core_str istty st pre pos fmt body en

theorem hasEsc_append (a b : String) : hasEsc (a ++ b) = (hasEsc a || hasEsc b) := by
  simp [hasEsc, String.data_append, List.any_append]

theorem digitChar_lt16_ne_esc : ∀ k, k < 16 → Nat.digitChar k ≠ '\x1b' := by
  decide

theorem toDigitsCore_ne_esc (fuel : Nat) : ∀ (n : Nat) (ds : List Char),
    (∀ c ∈ ds, c ≠ '\x1b') → ∀ c ∈ Nat.toDigitsCore 10 fuel n ds, c ≠ '\x1b' := by
  induction fuel with
  | zero => intro n ds hds; exact hds
  | succ fuel ih =>
      intro n ds hds c hc
      unfold Nat.toDigitsCore at hc
      by_cases hz : n / 10 = 0
      · rw [if_pos hz] at hc
        rcases List.mem_cons.mp hc with h | h
        · rw [h]; exact digitChar_lt16_ne_esc (n % 10) (by omega)
        · exact hds c h
      · rw [if_neg hz] at hc
        refine ih (n / 10) (Nat.digitChar (n % 10) :: ds) ?_ c hc
        intro d hd
        rcases List.mem_cons.mp hd with h | h
        · rw [h]; exact digitChar_lt16_ne_esc (n % 10) (by omega)
        · exact hds d h

theorem natRepr_ne_esc (n : Nat) : ∀ c ∈ (Nat.repr n).data, c ≠ '\x1b' := by
  intro c hc
  exact toDigitsCore_ne_esc (n + 1) n [] (by intro d hd; cases hd) c hc

theorem hasEsc_natToString (n : Nat) : hasEsc (toString n) = false := by
  apply List.any_eq_false.mpr
  intro c hc
  simp only [beq_iff_eq]
  exact natRepr_ne_esc n c hc

theorem hasEsc_intToString (i : Int) : hasEsc (toString i) = false := by
  cases i with
  | ofNat m => exact hasEsc_natToString m
  | negSucc m =>
      show hasEsc ("-" ++ toString (m + 1)) = false
      rw [hasEsc_append, hasEsc_natToString]
      decide

theorem hasEsc_lit_colon : hasEsc ":" = false := by decide

theorem hasEsc_lit_space : hasEsc " " = false := by decide

theorem hasEsc_lit_nl : hasEsc "\n" = false := by decide

theorem hasEsc_lit_empty : hasEsc "" = false := by decide

theorem hasEsc_pnameSeg (st : ErrState) (h : hasEscOpt st.pname = false) :
    hasEsc (pnameSeg st) = false := by
  unfold pnameSeg
  cases hp : st.pname with
  | none => decide
  | some pn =>
      rw [hp] at h
      simp only [hasEscOpt] at h
      simp [hasEsc_append, h, hasEsc_lit_colon]

theorem hasEsc_snameSeg (st : ErrState) (h : hasEscOpt st.sname = false) :
    hasEsc (snameSeg false st) = false := by
  unfold snameSeg
  cases hp : st.sname with
  | none => decide
  | some sn =>
      rw [hp] at h
      simp only [hasEscOpt] at h
      simp [hasEsc_append, h, hasEsc_lit_colon, hasEsc_lit_space, hasEsc_lit_empty]

theorem hasEsc_posSeg (pos : Option SourcePos) : hasEsc (posSeg false pos) = false := by
  unfold posSeg
  cases pos with
  | none => decide
  | some p =>
      simp [hasEsc_append, hasEsc_intToString, hasEsc_lit_colon, hasEsc_lit_empty]

theorem hasEsc_tagSeg (pre : Option String) (h : hasEscOpt pre = false) :
    hasEsc (tagSeg pre) = false := by
  unfold tagSeg
  cases pre with
  | none => decide
  | some t =>
      simp only [hasEscOpt] at h
      simp [hasEsc_append, h, hasEsc_lit_space]

theorem hasEsc_errnoSeg (fmt en : String) (h : hasEsc en = false) :
    hasEsc (errnoSeg fmt en) = false := by
  unfold errnoSeg
  by_cases hc : fmt ≠ "" ∧ fmt.back = ':'
  · rw [if_pos hc]
    simp [hasEsc_append, h, hasEsc_lit_space]
  · rw [if_neg hc]
    decide

theorem no_esc_core (st : ErrState) (pre : Option String) (pos : Option SourcePos)
    (fmt body en : String) (hpn : hasEscOpt st.pname = false)
    (hsn : hasEscOpt st.sname = false) (hbody : hasEsc body = false)
    (hen : hasEsc en = false) (hpre : hasEscOpt pre = false) :
    hasEsc (stderrStr (_weprintf false st pre pos fmt body en)) = false := by
  rw [weprintf_core_str]
  simp [hasEsc_append, hasEsc_pnameSeg st hpn, hasEsc_snameSeg st hsn,
    hasEsc_posSeg pos, hasEsc_tagSeg pre hpre, hasEsc_errnoSeg fmt en hen,
    hasEsc_lit_nl, hbody]

/-- C8 counterexample: with the diagnostic stream on a terminal, the tag a
caller hands to `teprintf` is NOT wrapped in an ANSI escape/reset pair: in
the concrete output below only the position is colourised, and the tag
`"note"` is not followed by the reset sequence `ESC "m"` that the wrapping
used for every colourised component would place immediately after it. -/
theorem teprintf_tag_not_wrapped :
    stderrStr (teprintf true st0 "note" "x" "x" "E").events =
      "\x1b[1;37m1:1\x1b[m: note x\n" ∧
    hasSeq ("note" ++ ASCII_RESET).data ("\x1b[1;37m1:1\x1b[m: note x\n").data = false := by
  constructor
  · decide
  · decide

/-- C8 (amended): when stderr is not a terminal no ANSI escape appears in
the output of any reporting path (given the names, the body, the errno text
and the tag contain none); when it is a terminal, the source name and the
position are wrapped bold-white/reset, `eprintf`/`leprintf` wrap their
`Error:` tag bold-red/reset and `weprintf` wraps `Warning:` bold-yellow/reset,
but `teprintf` emits its caller-supplied tag verbatim, unwrapped. -/
theorem colour_policy (st : ErrState) (tag fmt body en : String)
    (hpn : hasEscOpt st.pname = false) (hsn : hasEscOpt st.sname = false)
    (hbody : hasEsc body = false) (hen : hasEsc en = false)
    (htag : hasEsc tag = false) :
    hasEsc (stderrStr (eprintf false st fmt body en).events) = false ∧
    hasEsc (stderrStr (leprintf false st fmt body en).events) = false ∧
    hasEsc (stderrStr (weprintf false st fmt body en).events) = false ∧
    hasEsc (stderrStr (teprintf false st tag fmt body en).events) = false ∧
    stderrStr (eprintf true st fmt body en).events =
      pnameSeg st ++ (snameSeg true st ++ (" " ++ (ASCII_BOLD_RED ++ ("Error:" ++
        (ASCII_RESET ++ (" " ++ (body ++ (errnoSeg fmt en ++ "\n")))))))) ∧
    stderrStr (leprintf true st fmt body en).events =
      pnameSeg st ++ (snameSeg true st ++ (posSeg true (some st.position) ++
        (" " ++ (ASCII_BOLD_RED ++ ("Error:" ++ (ASCII_RESET ++ (" " ++ (body ++
          (errnoSeg fmt en ++ "\n"))))))))) ∧
    stderrStr (weprintf true st fmt body en).events =
      pnameSeg st ++ (snameSeg true st ++ (" " ++ (ASCII_BOLD_YELLOW ++ ("Warning:" ++
        (ASCII_RESET ++ (" " ++ (body ++ (errnoSeg fmt en ++ "\n")))))))) ∧
    stderrStr (teprintf true st tag fmt body en).events =
      pnameSeg st ++ (snameSeg true st ++ (posSeg true (some st.position) ++
        (" " ++ (tag ++ (" " ++ (body ++ (errnoSeg fmt en ++ "\n"))))))) := by
  refine ⟨?_, ?_, ?_, ?_, ?_, ?_, ?_, ?_⟩
  · exact no_esc_core st (some "Error:") none fmt body en hpn hsn hbody hen (by decide)
  · exact no_esc_core st (some "Error:") (some st.position) fmt body en hpn hsn hbody hen
      (by decide)
  · exact no_esc_core st (some "Warning:") none fmt body en hpn hsn hbody hen (by decide)
  · exact no_esc_core st (some tag) (some st.position) fmt body en hpn hsn hbody hen
      (by simp [hasEscOpt, htag])
  · show stderrStr (_weprintf true st
      (some (ASCII_BOLD_RED ++ "Error:" ++ ASCII_RESET)) none fmt body en) = _
    rw [weprintf_core_str]
    simp [posSeg, tagSeg, String.append_assoc, String.empty_append]
  · show stderrStr (_weprintf true st
      (some (ASCII_BOLD_RED ++ "Error:" ++ ASCII_RESET)) (some st.position) fmt body en) = _
    rw [weprintf_core_str]
    simp [tagSeg, String.append_assoc]
  · show stderrStr (_weprintf true st
      (some (ASCII_BOLD_YELLOW ++ "Warning:" ++ ASCII_RESET)) none fmt body en) = _
    rw [weprintf_core_str]
    simp [posSeg, tagSeg, String.append_assoc, String.empty_append]
  · show stderrStr (_weprintf true st (some tag) (some st.position) fmt body en) = _
    rw [weprintf_core_str]
    simp [tagSeg, String.append_assoc]

/-- Witness for C8 (amended) at a concrete state and message. -/
theorem colour_policy_witness :
    (hasEscOpt (some "cc") = false ∧ hasEscOpt (some "f.src") = false ∧
      hasEsc "oops" = false ∧ hasEsc "E" = false ∧ hasEsc "note" = false) ∧
    hasEsc (stderrStr (eprintf false ⟨some "cc", some "f.src", ⟨1, 1⟩⟩ "oops" "oops" "E").events)
      = false :=
  ⟨⟨by decide, by decide, by decide, by decide, by decide⟩,
    (colour_policy ⟨some "cc", some "f.src", ⟨1, 1⟩⟩ "note" "oops" "oops" "E"
      (by decide) (by decide) (by decide) (by decide) (by decide)).1⟩

theorem data_mk (l : List Char) : (String.mk l).data = l := rfl

theorem mk_nil : String.mk [] = "" := rfl

theorem strrchrSuffix_eq_none (c : Char) (l : List Char) (h : c ∉ l) :
    strrchrSuffix c l = none := by
  induction l with
  | nil => rfl
  | cons a rest ih =>
      have ha : ¬(a = c) := fun hac => h (by rw [hac]; exact List.mem_cons_self c rest)
      have hr : c ∉ rest := fun hm => h (List.mem_cons_of_mem a hm)
      simp [strrchrSuffix, ih hr, ha]

theorem strrchrSuffix_last (c : Char) (l r : List Char) (hr : c ∉ r) :
    strrchrSuffix c (l ++ c :: r) = some (c :: r) := by
  induction l with
  | nil => simp [strrchrSuffix, strrchrSuffix_eq_none c r hr]
  | cons a rest ih => simp [strrchrSuffix, ih]

/-- C6: after `setsrcname(p)` (with the duplication succeeding),
`getsrcname()` is exactly the substring of `p` after the last `'/'`; when
`p` has no `'/'`, it is `p` unchanged. -/
theorem setsrcname_installs_basename (istty : Bool) (en : String) (st : ErrState)
    (p : String) (q r : List Char) :
    (p.data = q ++ '/' :: r → '/' ∉ r →
      ∃ st2, (setsrcname istty en true st p).outcome = Outcome.ret st2 ∧
        getsrcname st2 = some (String.mk r)) ∧
    ('/' ∉ p.data →
      ∃ st2, (setsrcname istty en true st p).outcome = Outcome.ret st2 ∧
        getsrcname st2 = some p) := by
  constructor
  · intro hp hr
    refine ⟨{ st with sname := some (String.mk r) }, ?_, rfl⟩
    simp [setsrcname, estrdupStr, hp, strrchrSuffix_last '/' q r hr]
  · intro hp
    refine ⟨{ st with sname := some p }, ?_, rfl⟩
    simp [setsrcname, estrdupStr, strrchrSuffix_eq_none '/' p.data hp, mk_data]

/-- Witness for C6: `setsrcname("/a/b/c.src")` installs `"c.src"`, and
`setsrcname("c.src")` installs `"c.src"` unchanged. -/
theorem setsrcname_installs_basename_witness :
    (("/a/b/c.src" : String).data = ("/a/b" : String).data ++ '/' :: ("c.src" : String).data ∧
      '/' ∉ ("c.src" : String).data ∧
      ∃ st2, (setsrcname false "E" true st0 "/a/b/c.src").outcome = Outcome.ret st2 ∧
        getsrcname st2 = some (String.mk ("c.src" : String).data)) ∧
    ('/' ∉ ("c.src" : String).data ∧
      ∃ st2, (setsrcname false "E" true st0 "c.src").outcome = Outcome.ret st2 ∧
        getsrcname st2 = some "c.src") :=
  ⟨⟨by decide, by decide,
    (setsrcname_installs_basename false "E" st0 "/a/b/c.src" ("/a/b" : String).data
      ("c.src" : String).data).1 (by decide) (by decide)⟩,
   ⟨by decide,
    (setsrcname_installs_basename false "E" st0 "c.src" [] []).2 (by decide)⟩⟩

/-- C10: a path ending in `'/'` makes `setsrcname` (and `setprogname`)
install the empty string, so the getter returns `some ""`, not `none` and
not the previous value. -/
theorem trailing_slash_installs_empty (istty : Bool) (en : String) (st : ErrState)
    (q : List Char) :
    (∃ st2, (setsrcname istty en true st (String.mk (q ++ ['/']))).outcome =
        Outcome.ret st2 ∧ getsrcname st2 = some "") ∧
    (∃ st2, (setprogname istty en true st (String.mk (q ++ ['/']))).outcome =
        Outcome.ret st2 ∧ getprogname st2 = some "") := by
  have h := strrchrSuffix_last '/' q [] (by simp)
  constructor
  · refine ⟨{ st with sname := some "" }, ?_, rfl⟩
    simp [setsrcname, estrdupStr, data_mk, h, mk_nil]
  · refine ⟨{ st with pname := some "" }, ?_, rfl⟩
    simp [setprogname, estrdupStr, data_mk, h, mk_nil]

/-- C9: when the duplication's allocation fails, `setsrcname` and
`setprogname` print a fatal diagnostic and exit with status 2 instead of
returning. -/
theorem setters_die_on_alloc_failure (istty : Bool) (en : String) (st : ErrState)
    (s : String) :
    (setsrcname istty en false st s).outcome = Outcome.exit 2 ∧
    (setsrcname istty en false st s).events ≠ [] ∧
    (setprogname istty en false st s).outcome = Outcome.exit 2 ∧
    (setprogname istty en false st s).events ≠ [] := by
  refine ⟨rfl, ?_, rfl, ?_⟩ <;>
    simp [setsrcname, setprogname, estrdupStr, eprintf, _weprintf]

/-- C1 (code bug): at a concrete heap where the underlying allocation
fails, every Die variant exits with status 2, and `wemalloc`/`werealloc`
warn and return NULL — but `westrdup`, contrary to the Warn invariant,
reaches `strcpy(t, s)` with `t == NULL` after `weprintf` returns, a
null-pointer dereference (crash), instead of returning a null result. -/
theorem westrdup_failure_crashes :
    (estrdup false st0 "E" h0c false 1).outcome = Outcome.exit 2 ∧
    (emalloc false st0 "E" h0c false 7).outcome = Outcome.exit 2 ∧
    (erealloc false st0 "E" h0c false 1 7).outcome = Outcome.exit 2 ∧
    (wemalloc false st0 "E" h0c false 7).outcome = Outcome.ret (0, h0c) ∧
    (werealloc false st0 "E" h0c false 1 7).outcome = Outcome.ret (0, h0c) ∧
    (westrdup false st0 "E" h0c false 1).outcome = Outcome.crash := by
  decide

theorem find_map_write (bs : List (Nat × List Char)) (a b : Nat) (v : List Char)
    (hab : b ≠ a) :
    (bs.map (fun p => if p.fst = a then (a, v) else p)).find? (fun p => p.fst == b) =
      bs.find? (fun p => p.fst == b) := by
  induction bs with
  | nil => rfl
  | cons p rest ih =>
      by_cases hpa : p.fst = a
      · have h1 : (a == b) = false := beq_eq_false_iff_ne.mpr (Ne.symm hab)
        have h2 : (p.fst == b) = false := by rw [hpa]; exact h1
        simp [List.find?, hpa, h1, h2, ih]
      · by_cases hpb : p.fst = b
        · simp [List.find?, hpa, hpb, hab, ih]
        · have h2 : (p.fst == b) = false := beq_eq_false_iff_ne.mpr hpb
          simp [List.find?, hpa, h2, ih]

theorem Heap.read_write_ne (h : Heap) (a b : Nat) (v : List Char) (hab : b ≠ a) :
    (h.write a v).read b = h.read b :=
  congrArg (Option.map Prod.snd) (find_map_write h.blocks a b v hab)

/-- C7: when the allocation succeeds, `estrdup` returns a fresh address
holding a copy of the argument string; the two buffers are independent:
the new address differs from the argument's, the argument's contents are
untouched, and overwriting either block leaves the other's contents
unchanged. -/
theorem estrdup_returns_independent_copy (istty : Bool) (st : ErrState) (en : String)
    (h : Heap) (sa : Nat) (s : List Char)
    (hread : h.read sa = some s) (hlt : sa < h.next) :
    ∃ t h2, estrdup istty st en h true sa = ⟨[], Outcome.ret (t, h2)⟩ ∧
      h2.read t = some s ∧ t ≠ sa ∧ h2.read sa = some s ∧
      (∀ v, (h2.write t v).read sa = h2.read sa) ∧
      (∀ v, (h2.write sa v).read t = h2.read t) := by
  have hnz : ¬(h.next = 0) := by omega
  have hts : h.next ≠ sa := by omega
  have hst : sa ≠ h.next := by omega
  refine ⟨h.next,
    Heap.write ⟨h.next + 1, (h.next, List.replicate (s.length + 1) ' ') :: h.blocks⟩ h.next s,
    ?_, ?_, hts, ?_, ?_, ?_⟩
  · simp [estrdup, Heap.mallocH, Heap.strcpy, hread, hnz]
  · simp [Heap.read, Heap.write, List.find?]
  · have hbeq : (h.next == sa) = false := beq_eq_false_iff_ne.mpr hts
    rw [Heap.read_write_ne _ _ _ _ hst]
    show ((((h.next, List.replicate (s.length + 1) ' ') :: h.blocks).find?
      (fun p => p.fst == sa)).map Prod.snd) = some s
    rw [List.find?]
    simp only [hbeq]
    exact hread
  · intro v
    exact Heap.read_write_ne _ _ _ _ hst
  · intro v
    exact Heap.read_write_ne _ _ _ _ hts

/-- Witness for C7 at a concrete two-block heap holding `"hi"`. -/
theorem estrdup_returns_independent_copy_witness :
    Heap.read h0c 1 = some ['h', 'i'] ∧ 1 < h0c.next ∧
    (∃ t h2, estrdup false st0 "E" h0c true 1 = ⟨[], Outcome.ret (t, h2)⟩ ∧
      Heap.read h2 t = some ['h', 'i'] ∧ t ≠ 1 ∧ Heap.read h2 1 = some ['h', 'i'] ∧
      (∀ v, Heap.read (Heap.write h2 t v) 1 = Heap.read h2 1) ∧
      (∀ v, Heap.read (Heap.write h2 1 v) t = Heap.read h2 t)) :=
  ⟨by decide, by decide,
    estrdup_returns_independent_copy false st0 "E" h0c 1 ['h', 'i'] (by decide) (by decide)⟩

end ErrorC
